import Mathlib

/-!
# Market Scanner — Opportunity Evaluation & Staking Decision Engine

A shallow embedding of the core decision logic of the market-scanner
frontend: the exposure detector (`isBetPlaced`, `hasMatchExposure`,
`classifyExposure`), the freshness grader (`getStalenessInfo`), the
fractional-Kelly staking calculator (`suggestedStake`) and the
opportunity filter pipeline (`filteredData`).  JavaScript numbers are
modelled as rationals (`ℚ`), Unix timestamps as integers (`ℤ`),
`Math.round` as Mathlib's `round` (both are `⌊x + 1/2⌋`) and
`Math.floor` as `Int.floor`.
-/

namespace MarketScanner

/-- An opportunity surfaced by the feed (interface `Opportunity` in
`page.tsx`).  The source field `match` is rendered `matchName` because
`match` is a reserved word; `line` is `number | null`, modelled as
`Option ℚ`. -/
structure Opportunity where
  id : String
  matchName : String
  type : String
  selection : String
  line : Option ℚ
  danske_odds : ℚ
  fair_odds : ℚ
  ev : ℚ
  commence_time : String
deriving DecidableEq, Repr

/-- A previously recorded stake (interface `PlacedBet` in `page.tsx`). -/
structure PlacedBet where
  match_name : String
  selection : String
  market_type : String
  handicap : Option ℚ
deriving DecidableEq, Repr

/-- The Matching Key of an `Opportunity`: `(matchName, marketType,
selection, line)`. -/
def oppKey (op : Opportunity) : String × String × String × Option ℚ :=
  (op.matchName, op.type, op.selection, op.line)

/-- The Matching Key of a `PlacedBet`. -/
def betKey (pb : PlacedBet) : String × String × String × Option ℚ :=
  (pb.match_name, pb.market_type, pb.selection, pb.handicap)

/-- The per-pair predicate inside `isBetPlaced` (`page.tsx` lines
89–95): all three string fields equal under `===` and
`pb.handicap === op.line || (pb.handicap === null && op.line === null)`.
JavaScript `===` on two `null`s is true and on a `null` and a number is
false, which is exactly equality of `Option ℚ`. -/
def betMatches (pb : PlacedBet) (op : Opportunity) : Bool :=
  decide (pb.match_name = op.matchName) &&
  decide (pb.selection = op.selection) &&
  decide (pb.market_type = op.type) &&
  (decide (pb.handicap = op.line) ||
    (decide (pb.handicap = none) && decide (op.line = none)))

/-- `isBetPlaced` (`page.tsx` lines 88–96): some placed bet matches the
opportunity on the full Matching Key. -/
def isBetPlaced (placedBets : List PlacedBet) (op : Opportunity) : Bool :=
  placedBets.any fun pb => betMatches pb op

/-- `hasMatchExposure` (`page.tsx` lines 100–102): some placed bet is on
the same match, regardless of market or selection. -/
def hasMatchExposure (placedBets : List PlacedBet) (op : Opportunity) : Bool :=
  placedBets.any fun pb => decide (pb.match_name = op.matchName)

/-- The three-way exposure classification of an opportunity. -/
inductive Exposure where
  | AlreadyPlaced
  | CorrelatedExposure
  | Clear
deriving DecidableEq, Repr

/-- The classification computed per row in `page.tsx` lines 268–271:
`placed = isBetPlaced(bet)` and
`exposure = !placed && hasMatchExposure(bet)`. -/
def classifyExposure (placedBets : List PlacedBet) (op : Opportunity) : Exposure :=
  if isBetPlaced placedBets op then Exposure.AlreadyPlaced
  else if hasMatchExposure placedBets op then Exposure.CorrelatedExposure
  else Exposure.Clear

/-- The staleness tier of the reference feed. -/
inductive Tier where
  | Unknown
  | Fresh
  | Aging
  | Stale
deriving DecidableEq, Repr

/-- `getStalenessInfo` (`page.tsx` lines 134–143), reduced to the tier
carried by its `text` field: `dataAge === 0` is the `Unknown` sentinel;
otherwise `diffMinutes = Math.floor((now - dataAge) / 60)` selects
`Fresh` (`< 5`), `Aging` (`< 15`) or `Stale`. -/
def getStalenessInfo (dataAge now : ℤ) : Tier :=
  if dataAge = 0 then Tier.Unknown
  else
    let diffMinutes : ℤ := ⌊(((now - dataAge : ℤ) : ℚ) / 60)⌋
    if diffMinutes < 5 then Tier.Fresh
    else if diffMinutes < 15 then Tier.Aging
    else Tier.Stale

/-- The Kelly staking calculation of `BetModal` (`BetModal.tsx` lines
21–28).  `bet` is `Option Opportunity` because the component computes
with `bet ? … : 0` fallbacks before its null gate:
`b = bet.danske_odds - 1`, `evDecimal = bet.ev / 100`,
`fullKellyPercent = b > 0 ? evDecimal / b : 0`,
`adjustedKellyPercent = fullKellyPercent * fraction`,
`suggestedStake = Math.round(currentBankroll * adjustedKellyPercent)`. -/
def suggestedStake (bet : Option Opportunity) (fraction currentBankroll : ℚ) : ℤ :=
  let b : ℚ := match bet with
    | some bb => bb.danske_odds - 1
    | none => 0
  let evDecimal : ℚ := match bet with
    | some bb => bb.ev / 100
    | none => 0
  let fullKellyPercent : ℚ := if b > 0 then evDecimal / b else 0
  let adjustedKellyPercent : ℚ := fullKellyPercent * fraction
  round (currentBankroll * adjustedKellyPercent)

/-- `filteredData` (`page.tsx` lines 160–166): drop rows below the EV
threshold, and, when the hide-placed toggle is on, drop rows that are
already placed. -/
def filteredData (scannerData : List Opportunity) (placedBets : List PlacedBet)
    (minEv : ℚ) (hidePlaced : Bool) : List Opportunity :=
  scannerData.filter fun bet =>
    if bet.ev < minEv then false
    else if hidePlaced && isBetPlaced placedBets bet then false
    else true

/-- The Scenario A opportunity of the spec: Over 2.5 Totals at offered
odds 2.10 with 4.0 % EV. -/
def scenOppA : Opportunity :=
  { id := "a", matchName := "A vs B", type := "Total", selection := "Over",
    line := some (5/2), danske_odds := 21/10, fair_odds := 2, ev := 4,
    commence_time := "" }

/-- Scenario E opportunities with EV 1.5, 2.0 and 5.0. -/
def scenOppE1 : Opportunity :=
  { id := "e1", matchName := "M1", type := "Total", selection := "Over",
    line := none, danske_odds := 2, fair_odds := 2, ev := 3/2,
    commence_time := "" }

def scenOppE2 : Opportunity :=
  { id := "e2", matchName := "M2", type := "Total", selection := "Over",
    line := none, danske_odds := 2, fair_odds := 2, ev := 2,
    commence_time := "" }

def scenOppE3 : Opportunity :=
  { id := "e3", matchName := "M3", type := "Total", selection := "Over",
    line := none, danske_odds := 2, fair_odds := 2, ev := 5,
    commence_time := "" }

/-- An opportunity at the degenerate offered odds 1.00 (net odds zero),
exercising the Kelly division guard. -/
def oppLowOdds : Opportunity :=
  { id := "z", matchName := "Z vs W", type := "Total", selection := "Over",
    line := none, danske_odds := 1, fair_odds := 2, ev := 4,
    commence_time := "" }

/-- An opportunity with negative expected value. -/
def oppNegEv : Opportunity :=
  { id := "n", matchName := "N vs M", type := "Total", selection := "Over",
    line := none, danske_odds := 2, fair_odds := 2, ev := -10,
    commence_time := "" }

/-- Round of a nonnegative rational is nonnegative. -/
lemma round_nonneg_of_nonneg {x : ℚ} (h : 0 ≤ x) : 0 ≤ round x := by
  rw [round_eq]
  apply Int.le_floor.mpr
  push_cast
  linarith

/-- Round of a nonpositive rational is nonpositive. -/
lemma round_nonpos_of_nonpos {x : ℚ} (h : x ≤ 0) : round x ≤ 0 := by
  rw [round_eq]
  have h2 : (⌊x + 1/2⌋ : ℤ) ≤ ⌊(1:ℚ)/2⌋ := Int.floor_mono (by linarith)
  have h3 : (⌊(1:ℚ)/2⌋ : ℤ) = 0 := by
    rw [Int.floor_eq_iff]
    norm_num
  omega

/-- The per-pair match predicate holds exactly when the two Matching
Keys coincide: the redundant both-null disjunct in the source adds
nothing over `Option` equality. -/
lemma betMatches_iff_key (pb : PlacedBet) (op : Opportunity) :
    betMatches pb op = true ↔ betKey pb = oppKey op := by
  simp only [betMatches, betKey, oppKey, Bool.and_eq_true, Bool.or_eq_true,
    decide_eq_true_eq, Prod.mk.injEq]
  constructor
  · rintro ⟨⟨⟨h1, h2⟩, h3⟩, h4 | ⟨h4, h5⟩⟩
    · exact ⟨h1, h3, h2, h4⟩
    · exact ⟨h1, h3, h2, by rw [h4, h5]⟩
  · rintro ⟨h1, h3, h2, h4⟩
    exact ⟨⟨⟨h1, h2⟩, h3⟩, Or.inl h4⟩

/-- `isBetPlaced` as an existential over the book. -/
lemma isBetPlaced_iff (S : List PlacedBet) (op : Opportunity) :
    isBetPlaced S op = true ↔ ∃ pb ∈ S, betKey pb = oppKey op := by
  simp only [isBetPlaced, List.any_eq_true]
  constructor
  · rintro ⟨pb, hm, hk⟩
    exact ⟨pb, hm, (betMatches_iff_key pb op).mp hk⟩
  · rintro ⟨pb, hm, hk⟩
    exact ⟨pb, hm, (betMatches_iff_key pb op).mpr hk⟩

/-- `hasMatchExposure` as an existential over the book. -/
lemma hasMatchExposure_iff (S : List PlacedBet) (op : Opportunity) :
    hasMatchExposure S op = true ↔ ∃ pb ∈ S, pb.match_name = op.matchName := by
  simp [hasMatchExposure, List.any_eq_true]

/-- The classification is `AlreadyPlaced` exactly when `isBetPlaced`
answers true. -/
lemma classify_already_iff (S : List PlacedBet) (op : Opportunity) :
    classifyExposure S op = Exposure.AlreadyPlaced ↔ isBetPlaced S op = true := by
  unfold classifyExposure
  split_ifs with h1 h2 <;> simp_all

/-- Tier characterization: `Unknown` at the zero sentinel. -/
lemma staleness_unknown (now : ℤ) : getStalenessInfo 0 now = Tier.Unknown := by
  simp [getStalenessInfo]

/-- Tier characterization: `Stale` exactly when the timestamp is not the
sentinel and at least 15 elapsed minutes have passed. -/
lemma staleness_stale_iff (t now : ℤ) :
    getStalenessInfo t now = Tier.Stale ↔
      t ≠ 0 ∧ 15 ≤ ⌊((now - t : ℤ) : ℚ) / 60⌋ := by
  simp only [getStalenessInfo]
  split_ifs with h1 h2 h3 <;> simp_all
  omega

/-- Tier characterization: `Fresh` exactly when the timestamp is not the
sentinel and fewer than 5 elapsed minutes have passed. -/
lemma staleness_fresh_iff (t now : ℤ) :
    getStalenessInfo t now = Tier.Fresh ↔
      t ≠ 0 ∧ ⌊((now - t : ℤ) : ℚ) / 60⌋ < 5 := by
  simp only [getStalenessInfo]
  split_ifs with h1 h2 h3 <;> simp_all

/-- Tier characterization: `Aging` exactly when the timestamp is not the
sentinel and the elapsed minutes lie in `[5, 15)`. -/
lemma staleness_aging_iff (t now : ℤ) :
    getStalenessInfo t now = Tier.Aging ↔
      t ≠ 0 ∧ 5 ≤ ⌊((now - t : ℤ) : ℚ) / 60⌋ ∧ ⌊((now - t : ℤ) : ℚ) / 60⌋ < 15 := by
  simp only [getStalenessInfo]
  split_ifs with h1 h2 h3 <;> simp_all

/-- C1: the Kelly Staking Calculator computes
`suggestedStake = round(bankroll * ((evPercent/100) / (offeredOdds - 1)) * riskFraction)`
whenever `offeredOdds - 1 > 0`; in particular, for offered odds 2.10,
EV 4.0 %, bankroll 1000 and risk fraction 0.5 it returns 18. -/
theorem kelly_formula :
    (∀ (opp : Opportunity) (fraction currentBankroll : ℚ),
      opp.danske_odds - 1 > 0 →
      suggestedStake (some opp) fraction currentBankroll =
        round (currentBankroll * (opp.ev / 100 / (opp.danske_odds - 1)) * fraction)) ∧
    suggestedStake (some scenOppA) (1/2) 1000 = 18 := by
  constructor
  · intro opp fraction currentBankroll h
    simp only [suggestedStake]
    rw [if_pos h]
    congr 1
    ring
  · have h1 : suggestedStake (some scenOppA) (1/2) 1000 = round ((200:ℚ)/11) := by
      simp only [suggestedStake, scenOppA]
      norm_num
    rw [h1, round_eq, show (200:ℚ)/11 + 1/2 = 411/22 by norm_num,
      Int.floor_eq_iff] <;> norm_num

/-- C1 witness: the formula instantiated at Scenario A. -/
theorem kelly_formula_witness :
    suggestedStake (some scenOppA) (1/2) 1000 =
      round ((1000 : ℚ) * (scenOppA.ev / 100 / (scenOppA.danske_odds - 1)) * (1/2)) :=
  kelly_formula.1 scenOppA (1/2) 1000 (by norm_num [scenOppA])

/-- C2: the Exposure Detector classifies an opportunity as
`AlreadyPlaced` iff some bet in the book has an identical Matching Key;
as `CorrelatedExposure` iff it is not `AlreadyPlaced` but some bet
shares the match name; and as `Clear` otherwise — the first two are
mutually exclusive with `AlreadyPlaced` taking precedence. -/
theorem exposure_classification (op : Opportunity) (S : List PlacedBet) :
    (classifyExposure S op = Exposure.AlreadyPlaced ↔
      ∃ pb ∈ S, betKey pb = oppKey op) ∧
    (classifyExposure S op = Exposure.CorrelatedExposure ↔
      (¬ ∃ pb ∈ S, betKey pb = oppKey op) ∧
      ∃ pb ∈ S, pb.match_name = op.matchName) ∧
    (classifyExposure S op = Exposure.Clear ↔
      (¬ ∃ pb ∈ S, betKey pb = oppKey op) ∧
      ¬ ∃ pb ∈ S, pb.match_name = op.matchName) := by
  have hP := isBetPlaced_iff S op
  have hE := hasMatchExposure_iff S op
  unfold classifyExposure
  cases hp : isBetPlaced S op <;> cases he : hasMatchExposure S op <;>
    simp_all

/-- C3: the Freshness Grader returns `Unknown` at the zero sentinel;
otherwise with `m = ⌊(now - t)/60⌋` it returns `Fresh` for `m < 5`,
`Aging` for `5 ≤ m < 15` and `Stale` for `m ≥ 15`; in particular a
timestamp 900 s old grades `Stale` and one 299 s old grades `Fresh`. -/
theorem freshness_tiers :
    (∀ now : ℤ, getStalenessInfo 0 now = Tier.Unknown) ∧
    (∀ t now : ℤ, t ≠ 0 →
      (⌊((now - t : ℤ) : ℚ) / 60⌋ < 5 → getStalenessInfo t now = Tier.Fresh) ∧
      (5 ≤ ⌊((now - t : ℤ) : ℚ) / 60⌋ → ⌊((now - t : ℤ) : ℚ) / 60⌋ < 15 →
        getStalenessInfo t now = Tier.Aging) ∧
      (15 ≤ ⌊((now - t : ℤ) : ℚ) / 60⌋ → getStalenessInfo t now = Tier.Stale)) ∧
    getStalenessInfo (1700000000 - 900) 1700000000 = Tier.Stale ∧
    getStalenessInfo (1700000000 - 299) 1700000000 = Tier.Fresh := by
  refine ⟨staleness_unknown, ?_, ?_, ?_⟩
  · intro t now h0
    refine ⟨fun h => ?_, fun h5 h15 => ?_, fun h => ?_⟩
    · exact (staleness_fresh_iff t now).mpr ⟨h0, h⟩
    · exact (staleness_aging_iff t now).mpr ⟨h0, h5, h15⟩
    · exact (staleness_stale_iff t now).mpr ⟨h0, h⟩
  · apply (staleness_stale_iff _ _).mpr
    refine ⟨by norm_num, ?_⟩
    rw [Int.le_floor]
    push_cast
    norm_num
  · apply (staleness_fresh_iff _ _).mpr
    refine ⟨by norm_num, ?_⟩
    rw [Int.floor_lt]
    push_cast
    norm_num

/-- C3 witness: the tier characterization instantiated 360 s after the
reference timestamp, landing in `Aging`. -/
theorem freshness_tiers_witness :
    getStalenessInfo 540 900 = Tier.Aging :=
  (freshness_tiers.2.1 540 900 (by norm_num)).2.1
    (by rw [Int.le_floor]; push_cast; norm_num)
    (by rw [Int.floor_lt]; push_cast; norm_num)

/-- C4: the Filter Pipeline output is exactly the subsequence of the
input, in feed order, of opportunities with `evPercent ≥ minEvThreshold`
that are additionally not classified `AlreadyPlaced` when the hide flag
is set; with threshold 2.0 over EV values 1.5, 2.0, 5.0 the output is
the 2.0 and 5.0 entries, in that order. -/
theorem filter_pipeline :
    (∀ (ops : List Opportunity) (S : List PlacedBet) (minEv : ℚ) (hide : Bool),
      filteredData ops S minEv hide =
        ops.filter fun bet =>
          decide (minEv ≤ bet.ev) &&
          !(hide && decide (classifyExposure S bet = Exposure.AlreadyPlaced))) ∧
    (∀ (ops : List Opportunity) (S : List PlacedBet) (minEv : ℚ) (hide : Bool),
      (filteredData ops S minEv hide).Sublist ops) ∧
    filteredData [scenOppE1, scenOppE2, scenOppE3] [] 2 false =
      [scenOppE2, scenOppE3] := by
  refine ⟨?_, ?_, ?_⟩
  · intro ops S minEv hide
    simp only [filteredData]
    apply List.filter_congr
    intro bet _
    rw [Bool.eq_iff_iff]
    by_cases h1 : bet.ev < minEv
    · simp [h1, not_le.mpr h1]
    · have h1' : minEv ≤ bet.ev := not_lt.mp h1
      cases hide <;> cases hp : isBetPlaced S bet <;>
        simp_all [classify_already_iff]
  · intro ops S minEv hide
    exact List.filter_sublist ops
  · simp [filteredData, scenOppE1, scenOppE2, scenOppE3]
    norm_num

/-- C5: when the net odds `offeredOdds - 1` are zero or negative, the
Kelly Staking Calculator returns 0 regardless of EV, bankroll and risk
fraction — the division guard short-circuits to a defined zero, so the
total function never produces an undefined value. -/
theorem kelly_zero_guard (opp : Opportunity) (fraction currentBankroll : ℚ)
    (h : opp.danske_odds ≤ 1) :
    suggestedStake (some opp) fraction currentBankroll = 0 := by
  simp only [suggestedStake]
  rw [if_neg (by linarith)]
  simp

/-- C5 witness: the zero guard at offered odds 1.00. -/
theorem kelly_zero_guard_witness :
    suggestedStake (some oppLowOdds) (1/2) 1000 = 0 :=
  kelly_zero_guard oppLowOdds (1/2) 1000 (by norm_num [oppLowOdds])

/-- C6: a PlacedBet and an Opportunity match iff match name, market type
and selection are equal and the lines are equal under the rule that two
absent lines are equal and two present lines must be exactly equal. -/
theorem matching_key_rule (pb : PlacedBet) (op : Opportunity) :
    betMatches pb op = true ↔
      (pb.match_name = op.matchName ∧ pb.market_type = op.type ∧
       pb.selection = op.selection ∧
       ((pb.handicap = none ∧ op.line = none) ∨
        (∃ x : ℚ, pb.handicap = some x ∧ op.line = some x))) := by
  rw [betMatches_iff_key]
  simp only [betKey, oppKey, Prod.mk.injEq]
  constructor
  · rintro ⟨h1, h2, h3, h4⟩
    refine ⟨h1, h2, h3, ?_⟩
    cases hl : op.line with
    | none => exact Or.inl ⟨h4.trans hl, rfl⟩
    | some x => exact Or.inr ⟨x, h4.trans hl, rfl⟩
  · rintro ⟨h1, h2, h3, ⟨h4, h5⟩ | ⟨x, h4, h5⟩⟩
    · exact ⟨h1, h2, h3, h4.trans h5.symm⟩
    · exact ⟨h1, h2, h3, h4.trans h5.symm⟩

/-- C7: for offered odds above 1, nonnegative EV, nonnegative bankroll
and a risk fraction in `(0, 1]`, the suggested stake is nonnegative. -/
theorem kelly_nonneg (opp : Opportunity) (fraction currentBankroll : ℚ)
    (hodds : 1 < opp.danske_odds) (hev : 0 ≤ opp.ev)
    (hbank : 0 ≤ currentBankroll) (hf0 : 0 < fraction) (hf1 : fraction ≤ 1) :
    0 ≤ suggestedStake (some opp) fraction currentBankroll := by
  simp only [suggestedStake]
  rw [if_pos (by linarith)]
  apply round_nonneg_of_nonneg
  have hb : (0:ℚ) < opp.danske_odds - 1 := by linarith
  have hk : 0 ≤ opp.ev / 100 / (opp.danske_odds - 1) * fraction :=
    mul_nonneg (div_nonneg (by linarith) (le_of_lt hb)) (le_of_lt hf0)
  exact mul_nonneg hbank hk

/-- C7 witness: nonnegativity at Scenario A. -/
theorem kelly_nonneg_witness :
    0 ≤ suggestedStake (some scenOppA) (1/2) 1000 :=
  kelly_nonneg scenOppA (1/2) 1000 (by norm_num [scenOppA])
    (by norm_num [scenOppA]) (by norm_num) (by norm_num) (by norm_num)

/-- C8: for a fixed wall-clock time, the Freshness Grader never moves
from `Stale` back to `Fresh` as the reference timestamp decreases. -/
theorem freshness_monotone (now t1 t2 : ℤ) (hlt : t2 < t1)
    (hS : getStalenessInfo t1 now = Tier.Stale) :
    getStalenessInfo t2 now ≠ Tier.Fresh := by
  obtain ⟨h0, h15⟩ := (staleness_stale_iff t1 now).mp hS
  intro hF
  obtain ⟨h0', h5⟩ := (staleness_fresh_iff t2 now).mp hF
  have hmono : (⌊((now - t1 : ℤ) : ℚ) / 60⌋ : ℤ) ≤ ⌊((now - t2 : ℤ) : ℚ) / 60⌋ := by
    apply Int.floor_mono
    gcongr
  omega

/-- C8 witness: a feed stale at age 999 s stays non-fresh when 1100 s
old. -/
theorem freshness_monotone_witness :
    getStalenessInfo (-100) 1000 ≠ Tier.Fresh :=
  freshness_monotone 1000 1 (-100) (by norm_num)
    ((staleness_stale_iff 1 1000).mpr
      ⟨by norm_num, by rw [Int.le_floor]; push_cast; norm_num⟩)

/-- C9: the Filter Pipeline is idempotent — applying it to its own
output with the same parameters returns that output unchanged. -/
theorem filter_idempotent (ops : List Opportunity) (S : List PlacedBet)
    (minEv : ℚ) (hide : Bool) :
    filteredData (filteredData ops S minEv hide) S minEv hide =
      filteredData ops S minEv hide := by
  simp only [filteredData, List.filter_filter]
  apply List.filter_congr
  intro a _
  split_ifs <;> simp

/-- C10: with offered odds above 1, strictly negative EV, positive
bankroll and positive risk fraction, the suggested stake is nonpositive,
and strictly negative whenever it is nonzero — the negative edge is
propagated, not clamped to zero. -/
theorem kelly_negative_ev (opp : Opportunity) (fraction currentBankroll : ℚ)
    (hodds : 1 < opp.danske_odds) (hev : opp.ev < 0)
    (hbank : 0 < currentBankroll) (hf : 0 < fraction) :
    suggestedStake (some opp) fraction currentBankroll ≤ 0 ∧
    (suggestedStake (some opp) fraction currentBankroll ≠ 0 →
      suggestedStake (some opp) fraction currentBankroll < 0) := by
  have hle : suggestedStake (some opp) fraction currentBankroll ≤ 0 := by
    simp only [suggestedStake]
    rw [if_pos (by linarith)]
    apply round_nonpos_of_nonpos
    have hb : (0:ℚ) < opp.danske_odds - 1 := by linarith
    have hk : opp.ev / 100 / (opp.danske_odds - 1) * fraction ≤ 0 := by
      apply mul_nonpos_of_nonpos_of_nonneg
      · exact div_nonpos_of_nonpos_of_nonneg (by linarith) (le_of_lt hb)
      · exact le_of_lt hf
    exact mul_nonpos_of_nonneg_of_nonpos (le_of_lt hbank) hk
  exact ⟨hle, fun hne => lt_of_le_of_ne hle hne⟩

/-- C10 witness: nonpositivity at odds 2.00, EV −10 %, bankroll 1000 and
half Kelly. -/
theorem kelly_negative_ev_witness :
    suggestedStake (some oppNegEv) (1/2) 1000 ≤ 0 :=
  (kelly_negative_ev oppNegEv (1/2) 1000 (by norm_num [oppNegEv])
    (by norm_num [oppNegEv]) (by norm_num) (by norm_num)).1

end MarketScanner
